import Mathlib

/-!
Shallow embedding of the Warens booking backend (db.js, server.js, schema.sql).
Calendar dates are represented as days since the Unix epoch (an `Int`), which
is exactly the quantity the JavaScript code manipulates through
`Date.UTC`/`setUTCDate`/`getUTCDay`.  ISO date strings are produced and parsed
with the standard civil-calendar algorithms, mirroring `toISODate` and
`new Date(s + "T00:00:00Z")`.
-/

/-- Weekday test: `getUTCDay()` returns 1..5 for Monday..Friday; epoch day 0
(1970-01-01) was a Thursday, i.e. `getUTCDay() = 4`. -/
def isWeekday (z : Int) : Bool :=
  let wd := (z + 4) % 7
  1 ≤ wd && wd ≤ 5

/-- Days since the Unix epoch of a civil date (proleptic Gregorian). -/
def daysFromCivil (y m d : Int) : Int :=
  let yy := if m ≤ 2 then y - 1 else y
  let era := Int.fdiv yy 400
  let yoe := yy - era * 400
  let mp := if 2 < m then m - 3 else m + 9
  let doy := Int.fdiv (153 * mp + 2) 5 + d - 1
  let doe := yoe * 365 + Int.fdiv yoe 4 - Int.fdiv yoe 100 + doy
  era * 146097 + doe - 719468

/-- Civil date (year, month, day) of a days-since-epoch count. -/
def civilFromDays (z : Int) : Int × Int × Int :=
  let z2 := z + 719468
  let era := Int.fdiv z2 146097
  let doe := z2 - era * 146097
  let yoe := Int.fdiv (doe - Int.fdiv doe 1460 + Int.fdiv doe 36524 - Int.fdiv doe 146096) 365
  let y := yoe + era * 400
  let doy := doe - (365 * yoe + Int.fdiv yoe 4 - Int.fdiv yoe 100)
  let mp := Int.fdiv (5 * doy + 2) 153
  let d := doy - Int.fdiv (153 * mp + 2) 5 + 1
  let m := if mp < 10 then mp + 3 else mp - 9
  (if m ≤ 2 then y + 1 else y, m, d)

/-- Decimal digits of a natural number (fuel-indexed helper). -/
def natStrAux : Nat → Nat → List Char
  | 0, _ => []
  | f + 1, n => if n < 10 then [Nat.digitChar n] else natStrAux f (n / 10) ++ [Nat.digitChar (n % 10)]

/-- Decimal rendering of a natural number, as in JavaScript template strings. -/
def natStr (n : Nat) : String :=
  ⟨natStrAux (n + 1) n⟩

/-- Decimal rendering of an integer. -/
def intStr (z : Int) : String :=
  if z < 0 then "-" ++ natStr z.natAbs else natStr z.toNat

/-- Two-digit zero padding, as in `String(x).padStart(2, '0')`. -/
def pad2 (z : Int) : String :=
  if z < 10 then "0" ++ intStr z else intStr z

/-- Embedding of `toISODate`: render an epoch day as `YYYY-MM-DD` (the year is
printed unpadded, exactly as `${d.getUTCFullYear()}` does). -/
def toISODate (z : Int) : String :=
  intStr (civilFromDays z).1 ++ "-" ++ pad2 (civilFromDays z).2.1 ++ "-" ++ pad2 (civilFromDays z).2.2

/-- Gregorian leap-year test. -/
def isLeap (y : Nat) : Bool :=
  y % 4 = 0 && (y % 100 ≠ 0 || y % 400 = 0)

/-- Number of days in a month. -/
def daysInMonth (y m : Nat) : Nat :=
  if m = 2 then (if isLeap y then 29 else 28)
  else if m = 4 ∨ m = 6 ∨ m = 9 ∨ m = 11 then 30
  else 31

/-- Decimal value of a digit character. -/
def digitVal (c : Char) : Nat :=
  c.toNat - 48

/-- Embedding of `new Date(s + "T00:00:00Z")` on a date-only string: a strict
ISO `YYYY-MM-DD` string denoting a real calendar date parses to its epoch day;
anything else is an Invalid Date, represented as `none`. -/
def parseDate (s : String) : Option Int :=
  match s.data with
  | [y1, y2, y3, y4, c1, m1, m2, c2, d1, d2] =>
    if c1 = '-' ∧ c2 = '-' ∧ y1.isDigit ∧ y2.isDigit ∧ y3.isDigit ∧ y4.isDigit
        ∧ m1.isDigit ∧ m2.isDigit ∧ d1.isDigit ∧ d2.isDigit then
      let y := digitVal y1 * 1000 + digitVal y2 * 100 + digitVal y3 * 10 + digitVal y4
      let m := digitVal m1 * 10 + digitVal m2
      let d := digitVal d1 * 10 + digitVal d2
      if 1 ≤ m ∧ m ≤ 12 ∧ 1 ≤ d ∧ d ≤ daysInMonth y m then
        some (daysFromCivil (y : Int) (m : Int) (d : Int))
      else none
    else none
  | _ => none

/-- Whitespace trimming as performed by `parseInt` before scanning. -/
def jsTrim (l : List Char) : List Char :=
  ((l.dropWhile fun c => c = ' ' ∨ c = '\t' ∨ c = '\n' ∨ c = '\r').reverse.dropWhile
    fun c => c = ' ' ∨ c = '\t' ∨ c = '\n' ∨ c = '\r').reverse

/-- Value of the longest leading run of decimal digits; `none` when there is
no leading digit (the `NaN` outcome). -/
def leadDigits (l : List Char) : Option Nat :=
  let ds := l.takeWhile Char.isDigit
  if ds.isEmpty then none
  else some (ds.foldl (fun a c => a * 10 + digitVal c) 0)

/-- Embedding of `parseInt(s, 10)`: optional sign, then a leading digit run;
`none` models the `NaN` result. -/
def parseIntJS (s : String) : Option Int :=
  match jsTrim s.data with
  | '-' :: rest => (leadDigits rest).map (fun n => -(n : Int))
  | '+' :: rest => (leadDigits rest).map (fun n => (n : Int))
  | l => (leadDigits l).map (fun n => (n : Int))

/-- Raw calendar-day scan of `rollingWindow`: `days` consecutive epoch days
starting at `start`. -/
def rawScan (start : Int) (days : Nat) : List Int :=
  (List.range days).map (fun (i : Nat) => start + (i : Int))

/-- Weekday filtering step of `rollingWindow`, at the epoch-day level. -/
def windowDays (start : Int) (days : Nat) : List Int :=
  (rawScan start days).filter isWeekday

/-- Epoch-day form of `rollingWindow`: an unparseable start date (`none`,
i.e. Invalid Date) makes `isWeekday` fail on every iteration, so the result
is empty; a negative or `NaN` day count runs the loop zero times. -/
def rollingWindowD (start : Option Int) (days : Int) : List Int :=
  match start with
  | some st => windowDays st days.toNat
  | none => []

/-- Embedding of `rollingWindow(startStr, days)`, producing ISO date strings. -/
def rollingWindow (startStr : String) (days : Int) : List String :=
  (rollingWindowD (parseDate startStr) days).map toISODate


/-- Row of the `bookings` table.  Modelled from the spec: the Booking entity
carries an optional `email` contact field (the server's INSERT names an
`email` column; the migration adding it to `schema.sql`'s `bookings` table is
not part of the sources).  Dates are epoch days, the canonical value behind
the `DATE` column. -/
structure Booking where
  id : Nat
  full_name : String
  phone : String
  instagram : String
  email : Option String
  date : Int
  slot : String
deriving DecidableEq

/-- Row of the `slot_overrides` table. -/
structure Override where
  date : Int
  slot : String
  is_open : Bool
deriving DecidableEq

/-- Database state: the two tables plus the next `SERIAL` id for `bookings`. -/
structure DB where
  bookings : List Booking
  overrides : List Override
  nextId : Nat
deriving DecidableEq

/-- Display order of slots, `SLOT_ORDER` in the server. -/
def SLOT_ORDER : List String := ["C", "A", "B"]

/-- Slot definitions, `SLOT_MAP` in the server. -/
def slotMap (s : String) : Option (String × String) :=
  if s = "C" then some ("10:00", "12:00")
  else if s = "A" then some ("13:00", "15:00")
  else if s = "B" then some ("15:00", "17:00")
  else none

/-- Valid slot keys used by endpoint validation, `SLOT_KEYS = Object.keys(SLOT_MAP)`. -/
def SLOT_KEYS : List String := ["C", "A", "B"]

/-- Slots accepted by the storage layer: both tables carry
`CHECK (slot IN ('A','B'))` in `schema.sql`. -/
def schemaSlots : List String := ["A", "B"]

/-- Sentinel contact name for administrative blocking bookings. -/
def ADMIN_NAME : String := "Administrador"

/-- Sentinel contact phone for administrative blocking bookings. -/
def ADMIN_PHONE : String := "0"

/-- Sentinel instagram handle for administrative blocking bookings. -/
def ADMIN_IG : String := "admin"

/-- Display label of a slot, `SLOT_MAP[s].start - SLOT_MAP[s].end`. -/
def slotLabel (s : String) : String :=
  match slotMap s with
  | some p => p.1 ++ " - " ++ p.2
  | none => ""

/-- Membership of a `(date, slot)` key in the booked set of the availability
merge. -/
def bookedAt (bs : List Booking) (day : Int) (s : String) : Bool :=
  bs.any fun b => decide (b.date = day ∧ b.slot = s)

/-- Open flag of the availability merge: `!booked` unless the override map
has the key, in which case `is_open && !booked`. -/
def openAt (bs : List Booking) (os : List Override) (day : Int) (s : String) : Bool :=
  match os.find? (fun o => decide (o.date = day ∧ o.slot = s)) with
  | some o => o.is_open && !bookedAt bs day s
  | none => !bookedAt bs day s

/-- Per-slot availability as computed by the `GET /availability` inner loop,
returned as `(open, booked)`. -/
def slotStat (bs : List Booking) (os : List Override) (day : Int) (s : String) : Bool × Bool :=
  (openAt bs os day s, bookedAt bs day s)

/-- One element of the availability response: the date and, per displayed
slot key, its `(open, booked)` status and label. -/
structure SlotInfo where
  isOpen : Bool
  booked : Bool
  label : String
deriving DecidableEq

/-- One availability record, one per date of the window. -/
structure Entry where
  date : Int
  slots : List (String × SlotInfo)
deriving DecidableEq

/-- Slot keys displayed by availability: `SLOT_ORDER.filter(k => SLOT_KEYS.includes(k))`. -/
def displayOrder : List String :=
  SLOT_ORDER.filter (fun k => SLOT_KEYS.contains k)

/-- Start-date query parameter handling: `req.query.start || toISODate(todayCST())`
(an absent or empty parameter falls back to today). -/
def availStart (today : Int) (sp : Option String) : String :=
  match sp with
  | none => toISODate today
  | some s => if s = "" then toISODate today else s

/-- Day-count query parameter handling:
`Math.min(parseInt(req.query.days || '14', 10), 31)`; `none` models `NaN`. -/
def availDays (dp : Option String) : Option Int :=
  (match dp with
   | none => some 14
   | some s => if s = "" then some 14 else parseIntJS s).map (fun d => min d 31)

/-- Date window served by `GET /availability`. -/
def availWindow (today : Int) (sp dp : Option String) : List Int :=
  match availDays dp with
  | none => []
  | some d => rollingWindowD (parseDate (availStart today sp)) d

/-- Availability entry built from given (range-filtered) table contents. -/
def entryOf (bs : List Booking) (os : List Override) (day : Int) : Entry :=
  { date := day
    slots := displayOrder.map fun s =>
      (s, { isOpen := (slotStat bs os day s).1
            booked := (slotStat bs os day s).2
            label := slotLabel s }) }

/-- Embedding of `GET /availability`: compute the window, return `[]` when it
is empty, otherwise query both tables over `[dates[0], dates[last]]` and merge
per date and displayed slot. -/
def getAvailability (today : Int) (db : DB) (sp dp : Option String) : List Entry :=
  match availWindow today sp dp with
  | [] => []
  | d0 :: rest =>
    let dl := rest.getLastD d0
    let bs := db.bookings.filter fun b => decide (d0 ≤ b.date ∧ b.date ≤ dl)
    let os := db.overrides.filter fun o => decide (d0 ≤ o.date ∧ o.date ≤ dl)
    (d0 :: rest).map (entryOf bs os)

/-- Availability entry computed against the full tables (no range filter);
the range filter of the endpoint is proved transparent for window dates. -/
def entryOfFull (db : DB) (day : Int) : Entry :=
  entryOf db.bookings db.overrides day

/-- Result of `POST /book`. -/
inductive BookResult where
  | badRequest (msg : String)
  | ok (id : Nat)
  | conflict (msg : String)
deriving DecidableEq

/-- Recognizer for the 409 outcome of `POST /book`. -/
def isConflict : BookResult → Bool
  | .conflict _ => true
  | _ => false

/-- Recognizer for the success outcome of `POST /book`. -/
def isOk : BookResult → Bool
  | .ok _ => true
  | _ => false

/-- Attempted `INSERT INTO bookings`: enforces the storage constraints
`CHECK (slot IN ('A','B'))` and `UNIQUE (date, slot)`; `none` is a constraint
violation.  On success it returns the generated `SERIAL` id and the new state. -/
def insertBooking (db : DB) (fn ph ig : String) (em : Option String) (day : Int) (sl : String) : Option (Nat × DB) :=
  if schemaSlots.contains sl && db.bookings.all (fun b => !decide (b.date = day ∧ b.slot = sl)) then
    some (db.nextId,
      { bookings := db.bookings ++ [⟨db.nextId, fn, ph, ig, em, day, sl⟩]
        overrides := db.overrides
        nextId := db.nextId + 1 })
  else none

/-- Locking read of `POST /book` step (a): does a booking row exist for the pair. -/
def bookedPair (db : DB) (day : Int) (sl : String) : Bool :=
  db.bookings.any fun b => decide (b.date = day ∧ b.slot = sl)

/-- Window membership test of `POST /book`: the submitted date string must
equal one of the 14-day default-window strings; on success the underlying
epoch day is recovered (the `DATE` value the insert would store). -/
def windowFind (today : Int) (ds : String) : Option Int :=
  (rollingWindowD (some today) 14).find? fun z => decide (toISODate z = ds)

/-- Override row read by the transaction bodies for a `(date, slot)` pair. -/
def overrideFor (db : DB) (day : Int) (sl : String) : Option Override :=
  db.overrides.find? fun o => decide (o.date = day ∧ o.slot = sl)

/-- Insert step of the `POST /book` transaction: a constraint violation is a
thrown error, rolled back to the original state and surfaced as a 409. -/
def createBookingIns (db : DB) (fn ph ig : String) (em2 : Option String) (day : Int) (sl : String) : BookResult × DB :=
  match insertBooking db fn ph ig em2 day sl with
  | some r => (.ok r.1, r.2)
  | none => (.conflict "violates check constraint", db)

/-- Transaction body of `POST /book`: locking read of the booking row, then
the override read, then the insert; the deliberate aborts roll back (state
unchanged) and are reported as conflicts. -/
def createBookingTx (db : DB) (fn ph ig : String) (em2 : Option String) (day : Int) (sl : String) : BookResult × DB :=
  if bookedPair db day sl then
    (.conflict "Ese turno ya fue reservado", db)
  else
    match overrideFor db day sl with
    | some o =>
      if o.is_open = false then
        (.conflict "Ese turno está cerrado", db)
      else
        createBookingIns db fn ph ig em2 day sl
    | none => createBookingIns db fn ph ig em2 day sl

/-- Embedding of `POST /book` (`createBooking`): input validation, window
re-validation, then the `withTx` body. -/
def createBooking (today : Int) (db : DB) (fn ph ig : String) (em : Option String) (ds sl : String) : BookResult × DB :=
  if fn = "" ∨ ph = "" ∨ ig = "" ∨ ds = "" ∨ ¬ SLOT_KEYS.contains sl then
    (.badRequest "Datos incompletos", db)
  else
    match windowFind today ds with
    | none => (.badRequest "Fecha fuera de ventana o no hábil", db)
    | some day => createBookingTx db fn ph ig (if em = some "" then none else em) day sl

/-- Result of `POST /admin/api/slot`. -/
inductive AdminSlotResult where
  | badRequest
  | serverError
  | okOpened (removed_admin_block : Bool)
  | okClosed (created_admin_block : Bool) (id : Option Nat)
deriving DecidableEq

/-- Upsert of `slot_overrides` (`ON CONFLICT (date, slot) DO UPDATE`). -/
def upsertOverride (db : DB) (day : Int) (sl : String) (v : Bool) : DB :=
  if db.overrides.any (fun o => decide (o.date = day ∧ o.slot = sl)) then
    { db with overrides := db.overrides.map fun o =>
        if o.date = day ∧ o.slot = sl then { o with is_open := v } else o }
  else
    { db with overrides := db.overrides ++ [⟨day, sl, v⟩] }

/-- Predicate matched by the admin-block DELETE: pair equality plus the
sentinel `phone` and `instagram` values (full name and email are not part of
the WHERE clause). -/
def adminBlockPred (day : Int) (sl : String) (b : Booking) : Bool :=
  decide (b.date = day ∧ b.slot = sl ∧ b.phone = ADMIN_PHONE ∧ b.instagram = ADMIN_IG)

/-- Opening branch of the admin slot transaction: delete any admin-block rows
for the pair, reporting whether one was removed. -/
def setSlotOpen (db1 : DB) (day : Int) (sl : String) : AdminSlotResult × DB :=
  (.okOpened (db1.bookings.any (adminBlockPred day sl)),
   { db1 with bookings := db1.bookings.filter fun b => !adminBlockPred day sl b })

/-- Closing branch of the admin slot transaction: lock-read the pair, insert
the sentinel booking when no row exists; an insert failure aborts the whole
transaction, rolling back to the original state `dbOrig`. -/
def setSlotClose (dbOrig db1 : DB) (day : Int) (sl : String) : AdminSlotResult × DB :=
  if db1.bookings.any (fun b => decide (b.date = day ∧ b.slot = sl)) then
    (.okClosed false none, db1)
  else
    match insertBooking db1 ADMIN_NAME ADMIN_PHONE ADMIN_IG none day sl with
    | some r => (.okClosed true (some r.1), r.2)
    | none => (.serverError, dbOrig)

/-- Embedding of `POST /admin/api/slot` (`setSlotOverride`): validate, then in
one transaction upsert the override and either delete admin blocks (opening)
or insert a sentinel booking when the pair is unbooked (closing).  Any error
in the body — an unparseable `DATE` literal or a `CHECK` violation — rolls
everything back and surfaces as a 500. -/
def setSlotOverride (db : DB) (ds sl : String) (is_open : Bool) : AdminSlotResult × DB :=
  if ds = "" ∨ ¬ SLOT_KEYS.contains sl then
    (.badRequest, db)
  else
    match parseDate ds with
    | none => (.serverError, db)
    | some day =>
      if ¬ schemaSlots.contains sl then
        (.serverError, db)
      else
        if is_open then
          setSlotOpen (upsertOverride db day sl true) day sl
        else
          setSlotClose db (upsertOverride db day sl false) day sl

/-- Result of `DELETE /admin/api/booking/:id`. -/
inductive CancelResult where
  | badRequest
  | notFound
  | ok
deriving DecidableEq

/-- Embedding of `DELETE /admin/api/booking/:id` (`cancelBooking`): reject a
non-positive id, delete by id, report not-found when no row matched. -/
def cancelBooking (db : DB) (id : Nat) : CancelResult × DB :=
  if id = 0 then (.badRequest, db)
  else if (db.bookings.filter fun b => decide (¬ b.id = id)).length = db.bookings.length then
    (.notFound, db)
  else (.ok, { db with bookings := db.bookings.filter fun b => decide (¬ b.id = id) })

/-- Sequential execution of `n` identical `createBooking` calls — the order
the row lock of step (a) imposes on concurrent attempts for one pair.
Returns (number of successes, number of conflicts, final state). -/
def runBookings (today : Int) (n : Nat) (db : DB) (fn ph ig : String) (em : Option String) (ds sl : String) : Nat × Nat × DB :=
  match n with
  | 0 => (0, 0, db)
  | n + 1 =>
    let r := createBooking today db fn ph ig em ds sl
    let rest := runBookings today n r.2 fn ph ig em ds sl
    ((if isOk r.1 then 1 else 0) + rest.1, (if isConflict r.1 then 1 else 0) + rest.2.1, rest.2.2)

/-- Overrides are pairwise consistent: the `UNIQUE (date, slot)` constraint
of `slot_overrides` guarantees any two rows for one pair agree. -/
abbrev OverridesConsistent (db : DB) : Prop :=
  ∀ o₁ ∈ db.overrides, ∀ o₂ ∈ db.overrides,
    o₁.date = o₂.date → o₁.slot = o₂.slot → o₁.is_open = o₂.is_open

/-- Well-formed ids: `SERIAL` ids are positive and below the next value. -/
abbrev WF (db : DB) : Prop :=
  1 ≤ db.nextId ∧ ∀ b ∈ db.bookings, 1 ≤ b.id ∧ b.id < db.nextId

/-- Storage slot invariant: every persisted row satisfies the
`CHECK (slot IN ('A','B'))` constraints. -/
abbrev slotsOK (db : DB) : Prop :=
  (∀ b ∈ db.bookings, b.slot = "A" ∨ b.slot = "B")
  ∧ (∀ o ∈ db.overrides, o.slot = "A" ∨ o.slot = "B")

/-- Number of sentinel (admin-block) rows stored for a pair. -/
def countSentinel (db : DB) (day : Int) (sl : String) : Nat :=
  (db.bookings.filter fun b =>
    decide (b.date = day ∧ b.slot = sl ∧ b.full_name = ADMIN_NAME
      ∧ b.phone = ADMIN_PHONE ∧ b.instagram = ADMIN_IG)).length

/-- Empty database with the `SERIAL` sequence at 1. -/
def db0 : DB := ⟨[], [], 1⟩


/-- Sample state with a booked slot and overrides, used to instantiate the
availability theorems. -/
def dbW : DB :=
  ⟨[⟨1, "Ana", "555", "ana", none, 19877, "A"⟩],
   [⟨19877, "A", true⟩, ⟨19878, "B", false⟩], 2⟩

/-- Sample state holding a customer booking whose phone and instagram happen
to coincide with the administrative sentinel values. -/
def dbC4 : DB :=
  ⟨[⟨1, "Cliente", "0", "admin", none, 19877, "A"⟩], [], 2⟩

/-- Sample state with a closed override for a free pair. -/
def dbClosed : DB :=
  ⟨[], [⟨19877, "A", false⟩], 1⟩

theorem any_filter_eq {α : Type} (l : List α) (p q : α → Bool)
    (h : ∀ a ∈ l, p a = true → q a = true) :
    (l.filter q).any p = l.any p := by
  induction l with
  | nil => rfl
  | cons a t ih =>
    have ht : ∀ x ∈ t, p x = true → q x = true := fun x hx => h x (List.mem_cons_of_mem a hx)
    cases hq : q a
    · have hp : p a = false := by
        cases hp : p a
        · rfl
        · exact absurd (h a (List.mem_cons_self a t) hp) (by simp [hq])
      simp [List.filter_cons, hq, List.any_cons, hp, ih ht]
    · simp [List.filter_cons, hq, List.any_cons, ih ht]

theorem find?_filter_eq {α : Type} (l : List α) (p q : α → Bool)
    (h : ∀ a ∈ l, p a = true → q a = true) :
    (l.filter q).find? p = l.find? p := by
  induction l with
  | nil => rfl
  | cons a t ih =>
    have ht : ∀ x ∈ t, p x = true → q x = true := fun x hx => h x (List.mem_cons_of_mem a hx)
    cases hq : q a
    · have hp : p a = false := by
        cases hp : p a
        · rfl
        · exact absurd (h a (List.mem_cons_self a t) hp) (by simp [hq])
      simp [List.filter_cons, hq, List.find?_cons, hp, ih ht]
    · cases hp : p a
      · simp [List.filter_cons, hq, List.find?_cons, hp, ih ht]
      · simp [List.filter_cons, hq, List.find?_cons, hp]

theorem windowDays_pairwise (st : Int) (n : Nat) :
    (windowDays st n).Pairwise (· ≤ ·) := by
  have h1 : (rawScan st n).Pairwise (· ≤ ·) := by
    unfold rawScan
    exact List.Pairwise.map _ (fun (a b : Nat) (hab : a < b) => by omega)
      (List.pairwise_lt_range n)
  exact List.Pairwise.sublist (List.filter_sublist _) h1

theorem head_le_of_pairwise (d0 : Int) (rest : List Int) (x : Int)
    (hp : (d0 :: rest).Pairwise (· ≤ ·)) (hx : x ∈ d0 :: rest) : d0 ≤ x := by
  rcases List.mem_cons.mp hx with h | h
  · exact h ▸ le_refl d0
  · exact List.rel_of_pairwise_cons hp h

theorem le_getLastD_of_pairwise (x : Int) : ∀ (rest : List Int) (d0 : Int),
    (d0 :: rest).Pairwise (· ≤ ·) → x ∈ d0 :: rest → x ≤ rest.getLastD d0
  | [], d0, _, hx => by
    rcases List.mem_cons.mp hx with h | h
    · simp [List.getLastD, h]
    · simp at h
  | r :: rs, d0, hp, hx => by
    have hp' : (r :: rs).Pairwise (· ≤ ·) := hp.of_cons
    have hgl : (r :: rs).getLastD d0 = rs.getLastD r := List.getLastD_cons d0 r rs
    rcases List.mem_cons.mp hx with h | h
    · have h1 : d0 ≤ r := List.rel_of_pairwise_cons hp (List.mem_cons_self r rs)
      have h2 : r ≤ rs.getLastD r :=
        le_getLastD_of_pairwise r rs r hp' (List.mem_cons_self r rs)
      rw [hgl, h]
      exact le_trans h1 h2
    · have h2 := le_getLastD_of_pairwise x rs r hp' h
      rw [hgl]
      exact h2

theorem availWindow_pairwise (today : Int) (sp dp : Option String) :
    (availWindow today sp dp).Pairwise (· ≤ ·) := by
  rcases h : availDays dp with _ | d
  · simp [availWindow, h]
  · rcases h2 : parseDate (availStart today sp) with _ | st
    · simp [availWindow, rollingWindowD, h, h2]
    · simp only [availWindow, rollingWindowD, h, h2]
      exact windowDays_pairwise st d.toNat

theorem slotStat_filter (db : DB) (d0 dl day : Int) (s : String)
    (h0 : d0 ≤ day) (h1 : day ≤ dl) :
    slotStat (db.bookings.filter fun b => decide (d0 ≤ b.date ∧ b.date ≤ dl))
      (db.overrides.filter fun o => decide (d0 ≤ o.date ∧ o.date ≤ dl)) day s
      = slotStat db.bookings db.overrides day s := by
  unfold slotStat openAt bookedAt
  rw [any_filter_eq, find?_filter_eq]
  · intro o _ hpo
    have hp := of_decide_eq_true hpo
    simp only [decide_eq_true_eq]
    exact ⟨hp.1 ▸ h0, hp.1 ▸ h1⟩
  · intro b _ hpb
    have hp := of_decide_eq_true hpb
    simp only [decide_eq_true_eq]
    exact ⟨hp.1 ▸ h0, hp.1 ▸ h1⟩

theorem getAvailability_eq_full (today : Int) (db : DB) (sp dp : Option String) :
    getAvailability today db sp dp = (availWindow today sp dp).map (entryOfFull db) := by
  unfold getAvailability
  rcases he : availWindow today sp dp with _ | ⟨d0, rest⟩
  · rfl
  · have hp : (d0 :: rest).Pairwise (· ≤ ·) := by
      have h := availWindow_pairwise today sp dp
      rwa [he] at h
    simp only
    apply List.map_congr_left
    intro day hday
    have h0 : d0 ≤ day := head_le_of_pairwise d0 rest day hp hday
    have h1 : day ≤ rest.getLastD d0 := le_getLastD_of_pairwise day rest d0 hp hday
    have hs := fun s => slotStat_filter db d0 (rest.getLastD d0) day s h0 h1
    simp only [entryOfFull, entryOf, hs]

/-- C5: for every valid start date and window length, `rollingWindow`
(computeWindow) emits only weekday dates and is an in-order subsequence of
the raw scan of exactly `numDays` consecutive days from the start; for start
2024-06-03 (a Monday) and days=5 it is exactly Monday through Friday,
excluding June 8 and 9. -/
theorem rollingWindow_weekday_subsequence :
    (∀ (s : String) (st : Int) (n : Nat), parseDate s = some st →
        (rollingWindow s (n : Int)).Sublist ((rawScan st n).map toISODate)
      ∧ ∀ x ∈ rollingWindow s (n : Int), ∃ d : Int, isWeekday d = true ∧ x = toISODate d)
  ∧ rollingWindow "2024-06-03" 5
      = ["2024-06-03", "2024-06-04", "2024-06-05", "2024-06-06", "2024-06-07"]
  ∧ "2024-06-08" ∉ rollingWindow "2024-06-03" 5
  ∧ "2024-06-09" ∉ rollingWindow "2024-06-03" 5 := by
  refine ⟨?_, by decide, by decide, by decide⟩
  intro s st n hp
  constructor
  · unfold rollingWindow rollingWindowD
    rw [hp]
    simp only [Int.toNat_natCast]
    exact List.Sublist.map toISODate (List.filter_sublist _)
  · intro x hx
    unfold rollingWindow rollingWindowD at hx
    rw [hp] at hx
    rcases List.mem_map.mp hx with ⟨d, hd, hxd⟩
    refine ⟨d, ?_, hxd.symm⟩
    unfold windowDays at hd
    exact List.of_mem_filter hd

/-- Witness for C5 at the concrete scenario input. -/
theorem rollingWindow_weekday_subsequence_witness :
    parseDate "2024-06-03" = some 19877
  ∧ (rollingWindow "2024-06-03" (5 : Nat)).Sublist ((rawScan 19877 5).map toISODate) :=
  ⟨by decide, (rollingWindow_weekday_subsequence.1 "2024-06-03" 19877 5 (by decide)).1⟩

/-- C10: when the `days` query parameter is present, non-empty and does not
parse as an integer (`parseInt` yields `NaN`), the window scan runs zero
iterations and `GET /availability` returns an empty array, for every state
and start parameter. -/
theorem availability_nan_days (s : String) (hne : s ≠ "") (hp : parseIntJS s = none) :
    ∀ (today : Int) (db : DB) (sp : Option String),
      availWindow today sp (some s) = [] ∧ getAvailability today db sp (some s) = [] := by
  intro today db sp
  have hw : availWindow today sp (some s) = [] := by
    unfold availWindow availDays
    simp [hne, hp]
  refine ⟨hw, ?_⟩
  rw [getAvailability_eq_full, hw]
  rfl

/-- Witness for C10 at a concrete non-numeric parameter. -/
theorem availability_nan_days_witness :
    ("abc" : String) ≠ "" ∧ parseIntJS "abc" = none
  ∧ getAvailability 19877 db0 none (some "abc") = [] :=
  ⟨by decide, by decide, (availability_nan_days "abc" (by decide) (by decide) 19877 db0 none).2⟩

/-- C8 counterexample: a malformed non-empty start parameter does not fall
back to "today": the returned view is empty, while the view computed from
today's date is not. -/
theorem availability_malformed_start_not_today :
    getAvailability 19877 db0 (some "garbage") none = []
  ∧ getAvailability 19877 db0 none none ≠ [] := by
  constructor
  · decide
  · decide

/-- C8 (amended): `rollingWindow` itself never fails — with an unparseable
start every raw day is classified non-weekday, so the window and the
availability response are empty; the "today" default applies only when the
start parameter is absent (or empty), in which case the endpoint behaves as
if today's ISO date had been passed. -/
theorem availability_malformed_start (s : String) (hs : parseDate s = none) (hne : s ≠ "") :
    (∀ d : Int, rollingWindow s d = [])
  ∧ (∀ (today : Int) (db : DB) (dp : Option String), getAvailability today db (some s) dp = [])
  ∧ (∀ (today : Int) (db : DB) (dp : Option String),
      getAvailability today db none dp = getAvailability today db (some (toISODate today)) dp) := by
  refine ⟨?_, ?_, ?_⟩
  · intro d
    unfold rollingWindow rollingWindowD
    rw [hs]
    rfl
  · intro today db dp
    rw [getAvailability_eq_full]
    have hw : availWindow today (some s) dp = [] := by
      unfold availWindow
      cases hd : availDays dp
      · rfl
      · simp [availStart, hne, rollingWindowD, hs]
    rw [hw]
    rfl
  · intro today db dp
    have hst : availStart today none = availStart today (some (toISODate today)) := by
      simp [availStart]
    simp only [getAvailability, availWindow, hst]

/-- Witness for the amended C8 at a concrete malformed start string. -/
theorem availability_malformed_start_witness :
    parseDate "garbage" = none ∧ ("garbage" : String) ≠ ""
  ∧ rollingWindow "garbage" 14 = [] :=
  ⟨by decide, by decide, (availability_malformed_start "garbage" (by decide) (by decide)).1 14⟩

/-- C2: the availability response equals, per window date and displayed slot,
the merge over the full tables (the range filter is transparent); `booked` is
true iff a booking row exists for the pair, `open` is `!booked` without an
override and `override.is_open && !booked` with one, and a booked slot is
never reported open. -/
theorem availability_view_correct (db : DB) (today : Int) (sp dp : Option String)
    (hoc : OverridesConsistent db) :
    getAvailability today db sp dp = (availWindow today sp dp).map (entryOfFull db)
  ∧ ∀ (day : Int) (s : String),
      ((slotStat db.bookings db.overrides day s).2 = true
          ↔ ∃ b ∈ db.bookings, b.date = day ∧ b.slot = s)
    ∧ ((¬ ∃ o ∈ db.overrides, o.date = day ∧ o.slot = s) →
        (slotStat db.bookings db.overrides day s).1
          = !(slotStat db.bookings db.overrides day s).2)
    ∧ (∀ o ∈ db.overrides, o.date = day → o.slot = s →
        (slotStat db.bookings db.overrides day s).1
          = (o.is_open && !(slotStat db.bookings db.overrides day s).2))
    ∧ ((∃ b ∈ db.bookings, b.date = day ∧ b.slot = s) →
        (slotStat db.bookings db.overrides day s).1 = false) := by
  refine ⟨getAvailability_eq_full today db sp dp, ?_⟩
  intro day s
  refine ⟨?_, ?_, ?_, ?_⟩
  · show bookedAt db.bookings day s = true ↔ _
    unfold bookedAt
    rw [List.any_eq_true]
    constructor
    · rintro ⟨b, hb, hpb⟩
      exact ⟨b, hb, of_decide_eq_true hpb⟩
    · rintro ⟨b, hb, hpb⟩
      exact ⟨b, hb, decide_eq_true hpb⟩
  · intro hno
    have hf : db.overrides.find? (fun o => decide (o.date = day ∧ o.slot = s)) = none := by
      rw [List.find?_eq_none]
      intro o ho
      simp only [decide_eq_true_eq]
      intro hc
      exact hno ⟨o, ho, hc⟩
    show openAt db.bookings db.overrides day s = !bookedAt db.bookings day s
    unfold openAt
    rw [hf]
  · intro o ho hd hsl
    show openAt db.bookings db.overrides day s = (o.is_open && !bookedAt db.bookings day s)
    cases hf : db.overrides.find? (fun o => decide (o.date = day ∧ o.slot = s)) with
    | none =>
      rw [List.find?_eq_none] at hf
      exact absurd (by simp [hd, hsl]) (hf o ho)
    | some o2 =>
      have h1' : o2.date = day ∧ o2.slot = s := by
        have h0 := List.find?_some hf
        simpa using h0
      have h2 := List.mem_of_find?_eq_some hf
      have heq : o2.is_open = o.is_open :=
        hoc o2 h2 o ho (h1'.1.trans hd.symm) (h1'.2.trans hsl.symm)
      unfold openAt
      rw [hf]
      simp only []
      rw [heq]
  · intro hb
    have hbk : bookedAt db.bookings day s = true := by
      unfold bookedAt
      rw [List.any_eq_true]
      rcases hb with ⟨b, hb1, hb2⟩
      exact ⟨b, hb1, decide_eq_true hb2⟩
    show openAt db.bookings db.overrides day s = false
    cases hf : db.overrides.find? (fun o => decide (o.date = day ∧ o.slot = s)) with
    | none =>
      unfold openAt
      rw [hf, hbk]
      rfl
    | some o2 =>
      unfold openAt
      rw [hf, hbk]
      simp

/-- Witness for C2 on a concrete populated state. -/
theorem availability_view_correct_witness :
    OverridesConsistent dbW
  ∧ getAvailability 19877 dbW (some "2024-06-03") (some "5")
      = (availWindow 19877 (some "2024-06-03") (some "5")).map (entryOfFull dbW) :=
  ⟨by decide, (availability_view_correct dbW 19877 (some "2024-06-03") (some "5") (by decide)).1⟩

theorem mem_schemaSlots (sl : String) (h : schemaSlots.contains sl = true) :
    sl = "A" ∨ sl = "B" := by
  simp [schemaSlots] at h
  tauto

theorem schemaSlots_contains (sl : String) (h : sl = "A" ∨ sl = "B") :
    schemaSlots.contains sl = true := by
  simp [schemaSlots]
  tauto

theorem insertBooking_some (db : DB) (fn ph ig : String) (em2 : Option String) (day : Int) (sl : String)
    (hs : schemaSlots.contains sl = true)
    (hfree : ∀ b ∈ db.bookings, ¬(b.date = day ∧ b.slot = sl)) :
    insertBooking db fn ph ig em2 day sl
      = some (db.nextId,
          ⟨db.bookings ++ [⟨db.nextId, fn, ph, ig, em2, day, sl⟩], db.overrides, db.nextId + 1⟩) := by
  have hall : db.bookings.all (fun b => !decide (b.date = day ∧ b.slot = sl)) = true := by
    rw [List.all_eq_true]
    intro b hb
    rw [Bool.not_eq_true']
    exact decide_eq_false (hfree b hb)
  unfold insertBooking
  rw [hs, hall]
  rfl

theorem insertBooking_inv (db : DB) (fn ph ig : String) (em2 : Option String) (day : Int) (sl : String)
    (r : Nat × DB) (h : insertBooking db fn ph ig em2 day sl = some r) :
    r = (db.nextId,
          ⟨db.bookings ++ [⟨db.nextId, fn, ph, ig, em2, day, sl⟩], db.overrides, db.nextId + 1⟩)
  ∧ schemaSlots.contains sl = true
  ∧ ∀ b ∈ db.bookings, ¬(b.date = day ∧ b.slot = sl) := by
  unfold insertBooking at h
  split at h
  · next hc =>
    rw [Bool.and_eq_true] at hc
    have hc2 := hc
    refine ⟨by injection h with h2; exact h2.symm, hc2.1, ?_⟩
    intro b hb
    have hb2 := List.all_eq_true.mp hc2.2 b hb
    rw [Bool.not_eq_true'] at hb2
    exact of_decide_eq_false hb2
  · exact absurd h (by simp)

theorem createBooking_eq_tx (today : Int) (db : DB) (fn ph ig : String) (em : Option String)
    (ds sl : String) (day : Int)
    (hfn : ¬ fn = "") (hph : ¬ ph = "") (hig : ¬ ig = "") (hds : ¬ ds = "")
    (hsl : SLOT_KEYS.contains sl = true)
    (hw : windowFind today ds = some day) :
    createBooking today db fn ph ig em ds sl
      = createBookingTx db fn ph ig (if em = some "" then none else em) day sl := by
  unfold createBooking
  rw [if_neg (by simp [hfn, hph, hig, hds]; simpa using hsl), hw]

theorem createBookingTx_eq_conflict_booked (db : DB) (fn ph ig : String) (em2 : Option String)
    (day : Int) (sl : String) (hbk : bookedPair db day sl = true) :
    createBookingTx db fn ph ig em2 day sl = (.conflict "Ese turno ya fue reservado", db) := by
  unfold createBookingTx
  rw [if_pos hbk]

theorem createBookingTx_eq_conflict_closed (db : DB) (fn ph ig : String) (em2 : Option String)
    (day : Int) (sl : String) (o2 : Override)
    (hbk : bookedPair db day sl = false)
    (hov : overrideFor db day sl = some o2)
    (hio : o2.is_open = false) :
    createBookingTx db fn ph ig em2 day sl = (.conflict "Ese turno está cerrado", db) := by
  unfold createBookingTx
  rw [if_neg (by rw [hbk]; exact Bool.false_ne_true), hov]
  show (if o2.is_open = false then ((BookResult.conflict "Ese turno está cerrado"), db)
        else createBookingIns db fn ph ig em2 day sl) = _
  rw [if_pos hio]

theorem createBookingTx_eq_ok (db : DB) (fn ph ig : String) (em2 : Option String)
    (day : Int) (sl : String)
    (hfree : ∀ b ∈ db.bookings, ¬(b.date = day ∧ b.slot = sl))
    (hopen : ∀ o ∈ db.overrides, o.date = day → o.slot = sl → o.is_open = true)
    (hs : schemaSlots.contains sl = true) :
    createBookingTx db fn ph ig em2 day sl
      = (.ok db.nextId,
         ⟨db.bookings ++ [⟨db.nextId, fn, ph, ig, em2, day, sl⟩], db.overrides, db.nextId + 1⟩) := by
  have hbk : bookedPair db day sl = false := by
    unfold bookedPair
    rw [List.any_eq_false]
    intro b hb
    simp only [decide_eq_true_eq]
    exact hfree b hb
  have hins := insertBooking_some db fn ph ig em2 day sl hs hfree
  unfold createBookingTx
  rw [if_neg (by rw [hbk]; exact Bool.false_ne_true)]
  cases hov : overrideFor db day sl with
  | none =>
    show createBookingIns db fn ph ig em2 day sl = _
    unfold createBookingIns
    rw [hins]
  | some o =>
    have h1' : o.date = day ∧ o.slot = sl := by
      unfold overrideFor at hov
      have h0 := List.find?_some hov
      simpa using h0
    have ho : o.is_open = true := by
      unfold overrideFor at hov
      exact hopen o (List.mem_of_find?_eq_some hov) h1'.1 h1'.2
    show (if o.is_open = false then ((BookResult.conflict "Ese turno está cerrado"), db)
          else createBookingIns db fn ph ig em2 day sl) = _
    rw [if_neg (by simp [ho])]
    unfold createBookingIns
    rw [hins]

theorem createBookingTx_cases (db : DB) (fn ph ig : String) (em2 : Option String)
    (day : Int) (sl : String) :
    ((createBookingTx db fn ph ig em2 day sl).2 = db
       ∧ isOk (createBookingTx db fn ph ig em2 day sl).1 = false)
  ∨ ∃ r, insertBooking db fn ph ig em2 day sl = some r
      ∧ createBookingTx db fn ph ig em2 day sl = (.ok r.1, r.2) := by
  unfold createBookingTx createBookingIns
  split
  · exact Or.inl ⟨rfl, rfl⟩
  · split
    · split
      · exact Or.inl ⟨rfl, rfl⟩
      · split
        · next r heq => exact Or.inr ⟨r, heq, rfl⟩
        · exact Or.inl ⟨rfl, rfl⟩
    · split
      · next r heq => exact Or.inr ⟨r, heq, rfl⟩
      · exact Or.inl ⟨rfl, rfl⟩

theorem createBooking_cases (today : Int) (db : DB) (fn ph ig : String) (em : Option String)
    (ds sl : String) :
    ((createBooking today db fn ph ig em ds sl).2 = db
       ∧ isOk (createBooking today db fn ph ig em ds sl).1 = false)
  ∨ ∃ day r, windowFind today ds = some day
      ∧ insertBooking db fn ph ig (if em = some "" then none else em) day sl = some r
      ∧ createBooking today db fn ph ig em ds sl = (.ok r.1, r.2) := by
  unfold createBooking
  split
  · exact Or.inl ⟨rfl, rfl⟩
  · split
    · exact Or.inl ⟨rfl, rfl⟩
    · next day heq =>
      rcases createBookingTx_cases db fn ph ig (if em = some "" then none else em) day sl with
          ⟨h1, h2⟩ | ⟨r, hr1, hr2⟩
      · exact Or.inl ⟨h1, h2⟩
      · exact Or.inr ⟨day, r, heq, hr1, hr2⟩

/-- C1 counterexample: a `POST /book` call for slot "C" passes input
validation and the window check, yet with an empty database — no Booking row
and no Override row at all — it still reports a 409 conflict (the storage
`CHECK (slot IN ('A','B'))` rejects the insert), so "conflict iff booked or
closed" fails; the transaction is rolled back. -/
theorem createBooking_slotC_conflict_unbooked :
    isConflict (createBooking 19877 db0 "Cliente" "1" "insta" none "2024-06-03" "C").1 = true
  ∧ (createBooking 19877 db0 "Cliente" "1" "insta" none "2024-06-03" "C").2 = db0
  ∧ db0.bookings = [] ∧ db0.overrides = [] := by
  refine ⟨by decide, by decide, rfl, rfl⟩

/-- C1 (amended): for calls that reach the transaction, any conflict rolls
back all writes (the state is unchanged, so no new Booking row is persisted);
and for slots the storage CHECK constraint accepts ("A"/"B"), a conflict is
reported iff a Booking row already exists for the pair or an Override row
with `is_open = false` exists for it (for slot "C" the insert itself fails,
reported as a conflict without either condition). -/
theorem createBooking_conflict_iff (today : Int) (db : DB) (fn ph ig : String)
    (em : Option String) (ds sl : String) (day : Int)
    (hoc : OverridesConsistent db)
    (hfn : ¬ fn = "") (hph : ¬ ph = "") (hig : ¬ ig = "") (hds : ¬ ds = "")
    (hsl : SLOT_KEYS.contains sl = true)
    (hw : windowFind today ds = some day) :
    (isConflict (createBooking today db fn ph ig em ds sl).1 = true →
      (createBooking today db fn ph ig em ds sl).2 = db)
  ∧ (schemaSlots.contains sl = true →
      (isConflict (createBooking today db fn ph ig em ds sl).1 = true
        ↔ (∃ b ∈ db.bookings, b.date = day ∧ b.slot = sl)
          ∨ (∃ o ∈ db.overrides, o.date = day ∧ o.slot = sl ∧ o.is_open = false))) := by
  rw [createBooking_eq_tx today db fn ph ig em ds sl day hfn hph hig hds hsl hw]
  constructor
  · intro h
    rcases createBookingTx_cases db fn ph ig (if em = some "" then none else em) day sl with
        ⟨h1, _⟩ | ⟨r, _, hr2⟩
    · exact h1
    · rw [hr2] at h
      exact absurd h (by simp [isConflict])
  · intro hs
    constructor
    · intro h
      by_contra hno
      push_neg at hno
      obtain ⟨hnb, hnc⟩ := hno
      have hfree : ∀ b ∈ db.bookings, ¬(b.date = day ∧ b.slot = sl) := by
        intro b hb hc
        exact absurd hc.2 (hnb b hb hc.1)
      have hopen : ∀ o ∈ db.overrides, o.date = day → o.slot = sl → o.is_open = true := by
        intro o ho h1 h2
        cases hio : o.is_open
        · exact absurd hio (hnc o ho h1 h2)
        · rfl
      rw [createBookingTx_eq_ok db fn ph ig (if em = some "" then none else em) day sl
        hfree hopen hs] at h
      exact absurd h (by simp [isConflict])
    · intro h
      rcases h with ⟨b, hb, hc⟩ | ⟨o, ho, hd2, hs2, hio⟩
      · have hbk : bookedPair db day sl = true := by
          unfold bookedPair
          rw [List.any_eq_true]
          exact ⟨b, hb, decide_eq_true hc⟩
        rw [createBookingTx_eq_conflict_booked db fn ph ig (if em = some "" then none else em)
          day sl hbk]
        rfl
      · cases hbk : bookedPair db day sl
        · cases hov : overrideFor db day sl with
          | none =>
            unfold overrideFor at hov
            rw [List.find?_eq_none] at hov
            exact absurd (decide_eq_true ⟨hd2, hs2⟩) (hov o ho)
          | some o2 =>
            have h1' : o2.date = day ∧ o2.slot = sl := by
              unfold overrideFor at hov
              have h0 := List.find?_some hov
              simpa using h0
            have h2' : o2 ∈ db.overrides := by
              unfold overrideFor at hov
              exact List.mem_of_find?_eq_some hov
            have hio2 : o2.is_open = false :=
              (hoc o2 h2' o ho (h1'.1.trans hd2.symm) (h1'.2.trans hs2.symm)).trans hio
            rw [createBookingTx_eq_conflict_closed db fn ph ig
              (if em = some "" then none else em) day sl o2 hbk hov hio2]
            rfl
        · rw [createBookingTx_eq_conflict_booked db fn ph ig
            (if em = some "" then none else em) day sl hbk]
          rfl

/-- Witness for the amended C1 on a state with a closed override. -/
theorem createBooking_conflict_iff_witness :
    isConflict (createBooking 19877 dbClosed "Ana" "1" "ig" none "2024-06-03" "A").1 = true
      ↔ (∃ b ∈ dbClosed.bookings, b.date = 19877 ∧ b.slot = "A")
        ∨ (∃ o ∈ dbClosed.overrides, o.date = 19877 ∧ o.slot = "A" ∧ o.is_open = false) :=
  (createBooking_conflict_iff 19877 dbClosed "Ana" "1" "ig" none "2024-06-03" "A" 19877
    (by decide) (by decide) (by decide) (by decide) (by decide) (by decide) (by decide)).2
    (by decide)

theorem createBooking_eq_conflict_of_booked (today : Int) (db : DB) (fn ph ig : String)
    (em : Option String) (ds sl : String) (day : Int)
    (hfn : ¬ fn = "") (hph : ¬ ph = "") (hig : ¬ ig = "") (hds : ¬ ds = "")
    (hsl : SLOT_KEYS.contains sl = true)
    (hw : windowFind today ds = some day)
    (hbk : bookedPair db day sl = true) :
    createBooking today db fn ph ig em ds sl = (.conflict "Ese turno ya fue reservado", db) := by
  rw [createBooking_eq_tx today db fn ph ig em ds sl day hfn hph hig hds hsl hw,
    createBookingTx_eq_conflict_booked db fn ph ig (if em = some "" then none else em) day sl hbk]

theorem runBookings_all_conflict (today : Int) (fn ph ig : String) (em : Option String)
    (ds sl : String) (day : Int)
    (hfn : ¬ fn = "") (hph : ¬ ph = "") (hig : ¬ ig = "") (hds : ¬ ds = "")
    (hsl : SLOT_KEYS.contains sl = true)
    (hw : windowFind today ds = some day) :
    ∀ (n : Nat) (db : DB), bookedPair db day sl = true →
      runBookings today n db fn ph ig em ds sl = (0, n, db) := by
  intro n
  induction n with
  | zero => intro db _; rfl
  | succ m ih =>
    intro db hbk
    have hc := createBooking_eq_conflict_of_booked today db fn ph ig em ds sl day
      hfn hph hig hds hsl hw hbk
    simp only [runBookings, hc, ih db hbk, isOk, isConflict]
    simp [Nat.add_comm]

theorem createBookingTx_ok_override (db : DB) (fn ph ig : String) (em2 : Option String)
    (day : Int) (sl : String)
    (h : isOk (createBookingTx db fn ph ig em2 day sl).1 = true) :
    overrideFor db day sl = none
  ∨ ∃ o, overrideFor db day sl = some o ∧ o.is_open = true := by
  unfold createBookingTx at h
  split at h
  · simp [isOk] at h
  · split at h
    · next o heq =>
      split at h
      · simp [isOk] at h
      · next ho =>
        refine Or.inr ⟨o, heq, ?_⟩
        revert ho
        cases o.is_open <;> simp
    · next heq => exact Or.inl heq

/-- C3 counterexample: two serialized `createBooking` calls for the identical
pair (2024-06-03, "C") — a slot the server validates — starting from an empty
database produce zero successes and two conflicts, not exactly one success:
every insert for slot "C" fails on the storage CHECK constraint. -/
theorem runBookings_slotC_no_success :
    (runBookings 19877 2 db0 "Cliente" "1" "insta" none "2024-06-03" "C").1 = 0
  ∧ (runBookings 19877 2 db0 "Cliente" "1" "insta" none "2024-06-03" "C").2.1 = 2
  ∧ ¬ (runBookings 19877 2 db0 "Cliente" "1" "insta" none "2024-06-03" "C").1 = 1 := by
  refine ⟨by decide, by decide, by decide⟩

/-- C3 (amended): for a pair whose slot the storage CHECK constraint accepts
("A"/"B"), starting from a state with no booking for the pair and no override
forcing it closed, N ≥ 1 serialized `createBooking` calls targeting the
identical pair yield exactly one success and N−1 conflicts, and the final
state holds exactly one Booking row for that pair (the `UNIQUE (date, slot)`
constraint backstop). -/
theorem runBookings_exactly_one_success (today : Int) (db : DB) (fn ph ig : String)
    (em : Option String) (ds sl : String) (day : Int) (n : Nat)
    (hfn : ¬ fn = "") (hph : ¬ ph = "") (hig : ¬ ig = "") (hds : ¬ ds = "")
    (hsl : SLOT_KEYS.contains sl = true)
    (hw : windowFind today ds = some day)
    (hs : schemaSlots.contains sl = true)
    (hfree : ∀ b ∈ db.bookings, ¬(b.date = day ∧ b.slot = sl))
    (hopen : ∀ o ∈ db.overrides, o.date = day → o.slot = sl → o.is_open = true)
    (hn : 1 ≤ n) :
    (runBookings today n db fn ph ig em ds sl).1 = 1
  ∧ (runBookings today n db fn ph ig em ds sl).2.1 = n - 1
  ∧ (runBookings today n db fn ph ig em ds sl).2.2.bookings.countP
      (fun b => decide (b.date = day ∧ b.slot = sl)) = 1 := by
  obtain ⟨m, rfl⟩ : ∃ m, n = m + 1 := ⟨n - 1, by omega⟩
  have hcall : createBooking today db fn ph ig em ds sl
      = (.ok db.nextId,
         ⟨db.bookings ++ [⟨db.nextId, fn, ph, ig, (if em = some "" then none else em), day, sl⟩],
          db.overrides, db.nextId + 1⟩) := by
    rw [createBooking_eq_tx today db fn ph ig em ds sl day hfn hph hig hds hsl hw]
    exact createBookingTx_eq_ok db fn ph ig (if em = some "" then none else em) day sl
      hfree hopen hs
  have hbk1 : bookedPair
      ⟨db.bookings ++ [⟨db.nextId, fn, ph, ig, (if em = some "" then none else em), day, sl⟩],
       db.overrides, db.nextId + 1⟩ day sl = true := by
    unfold bookedPair
    rw [List.any_eq_true]
    refine ⟨⟨db.nextId, fn, ph, ig, (if em = some "" then none else em), day, sl⟩, ?_, by simp⟩
    simp
  have hrest := runBookings_all_conflict today fn ph ig em ds sl day hfn hph hig hds hsl hw m
    ⟨db.bookings ++ [⟨db.nextId, fn, ph, ig, (if em = some "" then none else em), day, sl⟩],
     db.overrides, db.nextId + 1⟩ hbk1
  have h0 : db.bookings.countP (fun b => decide (b.date = day ∧ b.slot = sl)) = 0 := by
    rw [List.countP_eq_zero]
    intro b hb
    simp only [decide_eq_true_eq]
    exact hfree b hb
  simp only [runBookings, hcall, hrest, isOk, isConflict]
  refine ⟨by simp, by simp, ?_⟩
  simp [List.countP_append, h0, List.countP_cons]
  intro a ha h1 h2
  exact hfree a ha ⟨h1, h2⟩

/-- Witness for the amended C3 with three serialized calls on a free pair. -/
theorem runBookings_exactly_one_success_witness :
    (runBookings 19877 3 db0 "Ana" "5" "ana" none "2024-06-03" "A").1 = 1
  ∧ (runBookings 19877 3 db0 "Ana" "5" "ana" none "2024-06-03" "A").2.1 = 2 := by
  have h := runBookings_exactly_one_success 19877 db0 "Ana" "5" "ana" none "2024-06-03" "A"
    19877 3 (by decide) (by decide) (by decide) (by decide) (by decide) (by decide)
    (by decide) (by decide) (by decide) (by decide)
  exact ⟨h.1, h.2.1⟩

theorem createBookingTx_ok_inv (db : DB) (fn ph ig : String) (em2 : Option String)
    (day : Int) (sl : String) (id : Nat) (db1 : DB)
    (h : createBookingTx db fn ph ig em2 day sl = (.ok id, db1)) :
    id = db.nextId
  ∧ db1 = ⟨db.bookings ++ [⟨db.nextId, fn, ph, ig, em2, day, sl⟩],
           db.overrides, db.nextId + 1⟩
  ∧ schemaSlots.contains sl = true
  ∧ ∀ b ∈ db.bookings, ¬(b.date = day ∧ b.slot = sl) := by
  rcases createBookingTx_cases db fn ph ig em2 day sl with ⟨_, hniok⟩ | ⟨r, hins, heqtx⟩
  · rw [h] at hniok
    exact absurd hniok (by simp [isOk])
  · obtain ⟨hr, hcont, hfree⟩ := insertBooking_inv db fn ph ig em2 day sl r hins
    rw [h, hr] at heqtx
    simp only [Prod.mk.injEq, BookResult.ok.injEq] at heqtx
    exact ⟨heqtx.1, heqtx.2, hcont, hfree⟩

/-- C7: a successful `createBooking` followed immediately by `cancelBooking`
with the returned id restores the pair's availability to open=true and
booked=false (the success already entails that no override forces the pair
closed), and leaves exactly the original booking rows. -/
theorem book_then_cancel (today : Int) (db : DB) (fn ph ig : String) (em : Option String)
    (ds sl : String) (id : Nat) (db1 : DB)
    (hwf : WF db)
    (h : createBooking today db fn ph ig em ds sl = (.ok id, db1)) :
    ∃ day, windowFind today ds = some day
      ∧ (cancelBooking db1 id).1 = .ok
      ∧ (cancelBooking db1 id).2.bookings = db.bookings
      ∧ slotStat (cancelBooking db1 id).2.bookings (cancelBooking db1 id).2.overrides day sl
          = (true, false) := by
  unfold createBooking at h
  split at h
  · exact absurd h (by simp)
  · split at h
    · exact absurd h (by simp)
    · next day hwd =>
      refine ⟨day, hwd, ?_⟩
      have hok : isOk (createBookingTx db fn ph ig (if em = some "" then none else em) day sl).1
          = true := by
        rw [h]
        rfl
      obtain ⟨hid, hdb1, hcont, hfree⟩ :=
        createBookingTx_ok_inv db fn ph ig (if em = some "" then none else em) day sl id db1 h
      subst hid
      subst hdb1
      have hidnz : ¬ db.nextId = 0 := by
        have h7 := hwf.1
        omega
      have hkeep : (db.bookings
            ++ [(⟨db.nextId, fn, ph, ig, (if em = some "" then none else em), day, sl⟩
                  : Booking)]).filter
          (fun b => decide (¬ b.id = db.nextId)) = db.bookings := by
        rw [List.filter_append]
        have h7 : db.bookings.filter (fun b => decide (¬ b.id = db.nextId)) = db.bookings := by
          rw [List.filter_eq_self]
          intro b hb
          have h8 := (hwf.2 b hb).2
          simp only [decide_eq_true_eq]
          omega
        rw [h7]
        simp
      have hcan : cancelBooking
          ⟨db.bookings
             ++ [⟨db.nextId, fn, ph, ig, (if em = some "" then none else em), day, sl⟩],
           db.overrides, db.nextId + 1⟩ db.nextId
          = (.ok, ⟨db.bookings, db.overrides, db.nextId + 1⟩) := by
        unfold cancelBooking
        rw [if_neg hidnz]
        simp only [hkeep, List.length_append]
        rw [if_neg (by simp)]
      rw [hcan]
      refine ⟨rfl, rfl, ?_⟩
      have hbkd : bookedAt db.bookings day sl = false := by
        unfold bookedAt
        rw [List.any_eq_false]
        intro b hb
        simp only [decide_eq_true_eq]
        exact hfree b hb
      have hopn : openAt db.bookings db.overrides day sl = true := by
        unfold openAt
        rcases createBookingTx_ok_override db fn ph ig (if em = some "" then none else em)
            day sl hok with hov | ⟨o, hov, ho⟩
        · unfold overrideFor at hov
          rw [hov, hbkd]
          rfl
        · unfold overrideFor at hov
          rw [hov, hbkd]
          show o.is_open && !false = true
          rw [ho]
          decide
      unfold slotStat
      rw [hopn, hbkd]

/-- Witness for C7: book a free pair on an empty database, then cancel. -/
theorem book_then_cancel_witness :
    WF db0
  ∧ createBooking 19877 db0 "Ana" "5" "ana" none "2024-06-03" "A"
      = (.ok 1, (createBooking 19877 db0 "Ana" "5" "ana" none "2024-06-03" "A").2)
  ∧ ∃ day, windowFind 19877 "2024-06-03" = some day
      ∧ (cancelBooking (createBooking 19877 db0 "Ana" "5" "ana" none "2024-06-03" "A").2 1).1
          = .ok
      ∧ (cancelBooking (createBooking 19877 db0 "Ana" "5" "ana" none "2024-06-03" "A").2 1).2.bookings
          = db0.bookings
      ∧ slotStat
          (cancelBooking (createBooking 19877 db0 "Ana" "5" "ana" none "2024-06-03" "A").2 1).2.bookings
          (cancelBooking (createBooking 19877 db0 "Ana" "5" "ana" none "2024-06-03" "A").2 1).2.overrides
          19877 "A" = (true, false) :=
  ⟨by decide, by decide,
   book_then_cancel 19877 db0 "Ana" "5" "ana" none "2024-06-03" "A" 1
     (createBooking 19877 db0 "Ana" "5" "ana" none "2024-06-03" "A").2 (by decide) (by decide)⟩

theorem upsertOverride_bookings (db : DB) (day : Int) (sl : String) (v : Bool) :
    (upsertOverride db day sl v).bookings = db.bookings := by
  unfold upsertOverride
  split <;> rfl

theorem upsertOverride_nextId (db : DB) (day : Int) (sl : String) (v : Bool) :
    (upsertOverride db day sl v).nextId = db.nextId := by
  unfold upsertOverride
  split <;> rfl

theorem SLOT_KEYS_contains_of_schema (sl : String) (h : schemaSlots.contains sl = true) :
    SLOT_KEYS.contains sl = true := by
  rcases mem_schemaSlots sl h with h2 | h2 <;> rw [h2] <;> decide

theorem parseDate_ne_empty (ds : String) (day : Int) (h : parseDate ds = some day) :
    ¬ ds = "" := by
  intro he
  rw [he] at h
  exact Option.noConfusion h

theorem setSlotOverride_eq_open (db : DB) (ds sl : String) (day : Int)
    (hds : parseDate ds = some day) (hsl : schemaSlots.contains sl = true) :
    setSlotOverride db ds sl true = setSlotOpen (upsertOverride db day sl true) day sl := by
  unfold setSlotOverride
  rw [if_neg (by
    simp only [not_or]
    exact ⟨parseDate_ne_empty ds day hds, by simpa using SLOT_KEYS_contains_of_schema sl hsl⟩), hds]
  show (if ¬ schemaSlots.contains sl = true then (AdminSlotResult.serverError, db)
        else if true = true then setSlotOpen (upsertOverride db day sl true) day sl
        else setSlotClose db (upsertOverride db day sl false) day sl) = _
  rw [if_neg (by simpa using hsl), if_pos rfl]

theorem setSlotOverride_eq_close (db : DB) (ds sl : String) (day : Int)
    (hds : parseDate ds = some day) (hsl : schemaSlots.contains sl = true) :
    setSlotOverride db ds sl false = setSlotClose db (upsertOverride db day sl false) day sl := by
  unfold setSlotOverride
  rw [if_neg (by
    simp only [not_or]
    exact ⟨parseDate_ne_empty ds day hds, by simpa using SLOT_KEYS_contains_of_schema sl hsl⟩), hds]
  show (if ¬ schemaSlots.contains sl = true then (AdminSlotResult.serverError, db)
        else if false = true then setSlotOpen (upsertOverride db day sl true) day sl
        else setSlotClose db (upsertOverride db day sl false) day sl) = _
  rw [if_neg (by simpa using hsl), if_neg (by simp)]

theorem setSlotClose_free (dbOrig db1 : DB) (day : Int) (sl : String)
    (hsl : schemaSlots.contains sl = true)
    (hfree : ∀ b ∈ db1.bookings, ¬(b.date = day ∧ b.slot = sl)) :
    setSlotClose dbOrig db1 day sl
      = (.okClosed true (some db1.nextId),
         ⟨db1.bookings ++ [⟨db1.nextId, ADMIN_NAME, ADMIN_PHONE, ADMIN_IG, none, day, sl⟩],
          db1.overrides, db1.nextId + 1⟩) := by
  have hany : db1.bookings.any (fun b => decide (b.date = day ∧ b.slot = sl)) = false := by
    rw [List.any_eq_false]
    intro b hb
    simp only [decide_eq_true_eq]
    exact hfree b hb
  unfold setSlotClose
  rw [if_neg (by rw [hany]; exact Bool.false_ne_true),
    insertBooking_some db1 ADMIN_NAME ADMIN_PHONE ADMIN_IG none day sl hsl hfree]

theorem setSlotClose_booked (dbOrig db1 : DB) (day : Int) (sl : String)
    (hb : db1.bookings.any (fun b => decide (b.date = day ∧ b.slot = sl)) = true) :
    setSlotClose dbOrig db1 day sl = (.okClosed false none, db1) := by
  unfold setSlotClose
  rw [if_pos hb]

/-- C4 counterexample: reopening a slot deletes a customer booking whose
phone and instagram coincide with the sentinel values even though its full
name is not the sentinel name — the DELETE does not compare all contact
fields, so "only if the contact fields exactly match" fails. -/
theorem setSlotOverride_open_deletes_customer :
    (setSlotOverride dbC4 "2024-06-03" "A" true).1 = .okOpened true
  ∧ (setSlotOverride dbC4 "2024-06-03" "A" true).2.bookings = []
  ∧ ∃ b ∈ dbC4.bookings, ¬ b.full_name = ADMIN_NAME
      ∧ b ∉ (setSlotOverride dbC4 "2024-06-03" "A" true).2.bookings := by
  refine ⟨by decide, by decide, ?_⟩
  exact ⟨⟨1, "Cliente", "0", "admin", none, 19877, "A"⟩, by decide, by decide, by decide⟩

/-- C4 (amended): `setSlotOverride(date, slot, true)` deletes exactly the
Booking rows for the pair whose `phone` and `instagram` equal the sentinel
values (`full_name` and `email` are not compared, so a customer booking that
shares those two values is also deleted), and reports whether any row was
removed. -/
theorem setSlotOverride_open_characterization (db : DB) (ds sl : String) (day : Int)
    (hds : parseDate ds = some day) (hsl : schemaSlots.contains sl = true) :
    (setSlotOverride db ds sl true).1
      = .okOpened (db.bookings.any (adminBlockPred day sl))
  ∧ (setSlotOverride db ds sl true).2.bookings
      = db.bookings.filter (fun b => !adminBlockPred day sl b)
  ∧ (∀ b ∈ db.bookings, b ∉ (setSlotOverride db ds sl true).2.bookings →
      b.phone = ADMIN_PHONE ∧ b.instagram = ADMIN_IG ∧ b.date = day ∧ b.slot = sl) := by
  rw [setSlotOverride_eq_open db ds sl day hds hsl]
  unfold setSlotOpen
  rw [upsertOverride_bookings]
  refine ⟨rfl, rfl, ?_⟩
  intro b hb hnin
  have hkeep : ¬ (!adminBlockPred day sl b) = true := fun hk =>
    hnin (List.mem_filter.mpr ⟨hb, hk⟩)
  have hpred : adminBlockPred day sl b = true := by
    revert hkeep
    cases adminBlockPred day sl b <;> simp
  have hp := of_decide_eq_true hpred
  exact ⟨hp.2.2.1, hp.2.2.2, hp.1, hp.2.1⟩

/-- Witness for the amended C4 on the sample state. -/
theorem setSlotOverride_open_characterization_witness :
    parseDate "2024-06-03" = some 19877
  ∧ (setSlotOverride dbC4 "2024-06-03" "A" true).1
      = .okOpened (dbC4.bookings.any (adminBlockPred 19877 "A")) :=
  ⟨by decide,
   (setSlotOverride_open_characterization dbC4 "2024-06-03" "A" 19877 (by decide) (by decide)).1⟩

/-- C6 counterexample: for slot "C" — which passes the endpoint's own
validation — closing twice does not leave one sentinel booking: every call
fails at the storage CHECK constraint on `slot_overrides`, is rolled back and
reported as a 500, so zero sentinel rows exist afterwards. -/
theorem setSlotOverride_close_twice_slotC :
    setSlotOverride (setSlotOverride db0 "2024-06-03" "C" false).2 "2024-06-03" "C" false
      = (.serverError, db0)
  ∧ countSentinel (setSlotOverride (setSlotOverride db0 "2024-06-03" "C" false).2
        "2024-06-03" "C" false).2 19877 "C" = 0
  ∧ ¬ countSentinel (setSlotOverride (setSlotOverride db0 "2024-06-03" "C" false).2
        "2024-06-03" "C" false).2 19877 "C" = 1 := by
  refine ⟨by decide, by decide, by decide⟩

/-- C6 (amended): for a slot the storage accepts ("A"/"B"), closing a pair
twice from a state with no booking for it leaves exactly one sentinel
Booking row — the second call observes the row inserted by the first and adds
nothing. -/
theorem setSlotOverride_close_idempotent (db : DB) (ds sl : String) (day : Int)
    (hds : parseDate ds = some day)
    (hsl : schemaSlots.contains sl = true)
    (hfree : ∀ b ∈ db.bookings, ¬(b.date = day ∧ b.slot = sl)) :
    countSentinel (setSlotOverride (setSlotOverride db ds sl false).2 ds sl false).2 day sl = 1
  ∧ (setSlotOverride (setSlotOverride db ds sl false).2 ds sl false).2.bookings
      = (setSlotOverride db ds sl false).2.bookings := by
  have hfree1 : ∀ b ∈ (upsertOverride db day sl false).bookings, ¬(b.date = day ∧ b.slot = sl) := by
    rw [upsertOverride_bookings]
    exact hfree
  have e1 : setSlotOverride db ds sl false
      = (.okClosed true (some (upsertOverride db day sl false).nextId),
         ⟨(upsertOverride db day sl false).bookings
            ++ [⟨(upsertOverride db day sl false).nextId, ADMIN_NAME, ADMIN_PHONE, ADMIN_IG,
                 none, day, sl⟩],
          (upsertOverride db day sl false).overrides,
          (upsertOverride db day sl false).nextId + 1⟩) := by
    rw [setSlotOverride_eq_close db ds sl day hds hsl]
    exact setSlotClose_free db (upsertOverride db day sl false) day sl hsl hfree1
  rw [e1]
  have hany2 : ∀ (db2 : DB), db2.bookings
        = (upsertOverride db day sl false).bookings
            ++ [⟨(upsertOverride db day sl false).nextId, ADMIN_NAME, ADMIN_PHONE, ADMIN_IG,
                 none, day, sl⟩] →
      db2.bookings.any (fun b => decide (b.date = day ∧ b.slot = sl)) = true := by
    intro db2 hdb2
    rw [hdb2, List.any_eq_true]
    exact ⟨⟨(upsertOverride db day sl false).nextId, ADMIN_NAME, ADMIN_PHONE, ADMIN_IG,
            none, day, sl⟩, by simp, by simp⟩
  have e2 : setSlotOverride
      (⟨(upsertOverride db day sl false).bookings
          ++ [⟨(upsertOverride db day sl false).nextId, ADMIN_NAME, ADMIN_PHONE, ADMIN_IG,
               none, day, sl⟩],
        (upsertOverride db day sl false).overrides,
        (upsertOverride db day sl false).nextId + 1⟩ : DB) ds sl false
      = setSlotClose
          (⟨(upsertOverride db day sl false).bookings
              ++ [⟨(upsertOverride db day sl false).nextId, ADMIN_NAME, ADMIN_PHONE, ADMIN_IG,
                   none, day, sl⟩],
            (upsertOverride db day sl false).overrides,
            (upsertOverride db day sl false).nextId + 1⟩ : DB)
          (upsertOverride
            (⟨(upsertOverride db day sl false).bookings
                ++ [⟨(upsertOverride db day sl false).nextId, ADMIN_NAME, ADMIN_PHONE, ADMIN_IG,
                     none, day, sl⟩],
              (upsertOverride db day sl false).overrides,
              (upsertOverride db day sl false).nextId + 1⟩ : DB) day sl false) day sl :=
    setSlotOverride_eq_close _ ds sl day hds hsl
  rw [e2]
  have hb3 := hany2
    (upsertOverride
      (⟨(upsertOverride db day sl false).bookings
          ++ [⟨(upsertOverride db day sl false).nextId, ADMIN_NAME, ADMIN_PHONE, ADMIN_IG,
               none, day, sl⟩],
        (upsertOverride db day sl false).overrides,
        (upsertOverride db day sl false).nextId + 1⟩ : DB) day sl false)
    (upsertOverride_bookings _ day sl false)
  rw [setSlotClose_booked _ _ day sl hb3]
  rw [upsertOverride_bookings]
  constructor
  · unfold countSentinel
    rw [upsertOverride_bookings]
    show ((db.bookings
        ++ [(⟨(upsertOverride db day sl false).nextId, ADMIN_NAME, ADMIN_PHONE, ADMIN_IG,
              none, day, sl⟩ : Booking)]).filter (fun (b : Booking) =>
          decide (b.date = day ∧ b.slot = sl ∧ b.full_name = ADMIN_NAME
            ∧ b.phone = ADMIN_PHONE ∧ b.instagram = ADMIN_IG))).length = 1
    rw [List.filter_append]
    have h0 : (db.bookings.filter fun b =>
        decide (b.date = day ∧ b.slot = sl ∧ b.full_name = ADMIN_NAME
          ∧ b.phone = ADMIN_PHONE ∧ b.instagram = ADMIN_IG)).length = 0 := by
      rw [List.length_eq_zero, List.filter_eq_nil_iff]
      intro b hb
      simp only [decide_eq_true_eq, not_and]
      intro h1 h2
      exact absurd ⟨h1, h2⟩ (hfree b hb)
    rw [List.length_append, h0]
    simp
  · exact upsertOverride_bookings _ day sl false

/-- Witness for the amended C6 on an empty database. -/
theorem setSlotOverride_close_idempotent_witness :
    countSentinel (setSlotOverride (setSlotOverride db0 "2024-06-03" "A" false).2
      "2024-06-03" "A" false).2 19877 "A" = 1 :=
  (setSlotOverride_close_idempotent db0 "2024-06-03" "A" 19877
    (by decide) (by decide) (by decide)).1

theorem insertBooking_none (db : DB) (fn ph ig : String) (em2 : Option String)
    (day : Int) (sl : String) (hs : schemaSlots.contains sl = false) :
    insertBooking db fn ph ig em2 day sl = none := by
  unfold insertBooking
  rw [hs]
  rfl

theorem createBookingTx_slotC (db : DB) (fn ph ig : String) (em2 : Option String) (day : Int) :
    isConflict (createBookingTx db fn ph ig em2 day "C").1 = true
  ∧ (createBookingTx db fn ph ig em2 day "C").2 = db := by
  have hins : insertBooking db fn ph ig em2 day "C" = none :=
    insertBooking_none db fn ph ig em2 day "C" (by decide)
  unfold createBookingTx createBookingIns
  split
  · exact ⟨rfl, rfl⟩
  · split
    · split
      · exact ⟨rfl, rfl⟩
      · rw [hins]
        exact ⟨rfl, rfl⟩
    · rw [hins]
      exact ⟨rfl, rfl⟩

theorem slotsOK_upsert (db : DB) (day : Int) (sl : String) (v : Bool)
    (hsl : schemaSlots.contains sl = true) (h : slotsOK db) :
    slotsOK (upsertOverride db day sl v) := by
  unfold upsertOverride
  split
  · refine ⟨h.1, ?_⟩
    intro o ho
    rcases List.mem_map.mp ho with ⟨o2, ho2, hfo⟩
    have hs2 := h.2 o2 ho2
    by_cases hc : o2.date = day ∧ o2.slot = sl
    · rw [if_pos hc] at hfo
      rw [← hfo]
      exact hs2
    · rw [if_neg hc] at hfo
      rw [← hfo]
      exact hs2
  · refine ⟨h.1, ?_⟩
    intro o ho
    rcases List.mem_append.mp ho with h2 | h2
    · exact h.2 o h2
    · have h3 : o = ⟨day, sl, v⟩ := List.mem_singleton.mp h2
      rw [h3]
      exact mem_schemaSlots sl hsl

theorem slotsOK_createBooking (today : Int) (db : DB) (fn ph ig : String)
    (em : Option String) (ds sl : String) (h : slotsOK db) :
    slotsOK (createBooking today db fn ph ig em ds sl).2 := by
  rcases createBooking_cases today db fn ph ig em ds sl with ⟨h1, _⟩ | ⟨day, r, _, hins, heq⟩
  · rw [h1]
    exact h
  · obtain ⟨hr, hcont, _⟩ :=
      insertBooking_inv db fn ph ig (if em = some "" then none else em) day sl r hins
    rw [heq, hr]
    constructor
    · intro b hb
      simp only [List.mem_append, List.mem_singleton] at hb
      rcases hb with hb | hb
      · exact h.1 b hb
      · rw [hb]
        exact mem_schemaSlots sl hcont
    · intro o ho
      exact h.2 o ho

theorem slotsOK_setSlotOverride (db : DB) (ds sl : String) (v : Bool) (h : slotsOK db) :
    slotsOK (setSlotOverride db ds sl v).2 := by
  unfold setSlotOverride
  split
  · exact h
  · split
    · exact h
    · next day hds =>
      split
      · exact h
      · next hschema =>
        have hsl : schemaSlots.contains sl = true := by
          revert hschema
          cases schemaSlots.contains sl <;> simp
        split
        · unfold setSlotOpen
          refine ⟨?_, (slotsOK_upsert db day sl true hsl h).2⟩
          intro b hb
          have hb2 := List.mem_of_mem_filter hb
          rw [upsertOverride_bookings] at hb2
          exact h.1 b hb2
        · unfold setSlotClose
          split
          · exact slotsOK_upsert db day sl false hsl h
          · split
            · next r hins =>
              obtain ⟨hr, hcont, _⟩ := insertBooking_inv (upsertOverride db day sl false)
                ADMIN_NAME ADMIN_PHONE ADMIN_IG none day sl r hins
              rw [hr]
              constructor
              · intro b hb
                simp only [List.mem_append, List.mem_singleton] at hb
                rcases hb with hb | hb
                · rw [upsertOverride_bookings] at hb
                  exact h.1 b hb
                · rw [hb]
                  exact mem_schemaSlots sl hcont
              · intro o ho
                exact (slotsOK_upsert db day sl false hsl h).2 o ho
            · exact h

theorem slotsOK_cancelBooking (db : DB) (id : Nat) (h : slotsOK db) :
    slotsOK (cancelBooking db id).2 := by
  unfold cancelBooking
  split
  · exact h
  · split
    · exact h
    · refine ⟨?_, h.2⟩
      intro b hb
      exact h.1 b (List.mem_of_mem_filter hb)

/-- C9: in every reachable state all persisted rows carry slot "A" or "B" —
each operation preserves the storage CHECK invariant — and every `POST /book`
for slot "C" that passes input validation and the window check always fails
inside the transaction (reported as a conflict) leaving the state unchanged,
so no slot-"C" row is ever persisted. -/
theorem slotsOK_invariant :
    (∀ (today : Int) (db : DB) (fn ph ig : String) (em : Option String) (ds sl : String),
        slotsOK db → slotsOK (createBooking today db fn ph ig em ds sl).2)
  ∧ (∀ (db : DB) (ds sl : String) (v : Bool),
        slotsOK db → slotsOK (setSlotOverride db ds sl v).2)
  ∧ (∀ (db : DB) (id : Nat), slotsOK db → slotsOK (cancelBooking db id).2)
  ∧ (∀ (today : Int) (db : DB) (fn ph ig : String) (em : Option String) (ds : String)
        (day : Int),
        ¬ fn = "" → ¬ ph = "" → ¬ ig = "" → ¬ ds = "" →
        windowFind today ds = some day →
        isConflict (createBooking today db fn ph ig em ds "C").1 = true
        ∧ (createBooking today db fn ph ig em ds "C").2 = db) := by
  refine ⟨slotsOK_createBooking, slotsOK_setSlotOverride, slotsOK_cancelBooking, ?_⟩
  intro today db fn ph ig em ds day hfn hph hig hds hw
  rw [createBooking_eq_tx today db fn ph ig em ds "C" day hfn hph hig hds (by decide) hw]
  exact createBookingTx_slotC db fn ph ig (if em = some "" then none else em) day

/-- Witness for C9 on concrete states and requests. -/
theorem slotsOK_invariant_witness :
    slotsOK db0
  ∧ slotsOK (createBooking 19877 db0 "n" "p" "i" none "2024-06-03" "A").2
  ∧ isConflict (createBooking 19877 db0 "n" "p" "i" none "2024-06-03" "C").1 = true :=
  ⟨by decide,
   slotsOK_invariant.1 19877 db0 "n" "p" "i" none "2024-06-03" "A" (by decide),
   (slotsOK_invariant.2.2.2 19877 db0 "n" "p" "i" none "2024-06-03" 19877
     (by decide) (by decide) (by decide) (by decide) (by decide)).1⟩
